import Mathlib

/-!
Verification of the node-feature-discovery core pipeline: per-detector label
generation with fault isolation, whitelist filtering, and the node-label
reconciliation cycle, together with the gpu detector.

Label maps (Go `map[string]string`) are embedded as association lists whose
key set is kept duplicate-free by the update operation; a map is observed
through `lookupLabel`.
-/

/-- A label map: association list of key/value pairs, mirroring a Go
`map[string]string` (unordered; one binding per key). -/
abbrev Labels := List (String × String)

/-- Go map indexing: value bound to key `k`, if any. -/
def lookupLabel (m : Labels) (k : String) : Option String :=
  (m.find? (fun p => p.1 == k)).map (fun p => p.2)

/-- Go map assignment `m[k] = v`: the binding for `k` is replaced (maps are
unordered, so the new binding is placed at the front). -/
def setLabel (m : Labels) (k v : String) : Labels :=
  (k, v) :: m.filter (fun p => !(p.1 == k))

/-- The key set of a label map is duplicate-free (holds for every Go map). -/
def nodupKeys (m : Labels) : Prop := (m.map Prod.fst).Nodup

instance (m : Labels) : Decidable (nodupKeys m) := by
  unfold nodupKeys; infer_instance

/-- Modelled from the spec: the reserved label namespace. Every key written
by the system starts with this string (its exact value is immaterial to the
properties proved here). -/
def labelNs : String := "node.alpha.kubernetes-incubator.io/nfd"

/-- Key synthesis: reserved namespace, detector name and feature name joined
by dashes (spec section 3, persisted label shape). -/
def mkLabelName (sourceName feature : String) : String :=
  labelNs ++ "-" ++ sourceName ++ "-" ++ feature

/-- Go strings.HasPrefix k pre: k starts with pre (character-level). -/
def startsWith (k pre : String) : Bool :=
  pre.data.isPrefixOf k.data

/-- Whether the character list sub occurs contiguously inside ks. -/
def listContains (sub : List Char) : List Char → Bool
  | [] => sub.isEmpty
  | c :: rest => sub.isPrefixOf (c :: rest) || listContains sub rest

/-- Outcome of one detector invocation: ordinary success, ordinary error, or
abnormal termination (a Go panic) inside the detector. -/
inductive DiscoverResult where
  | ok (features : List String)
  | err (msg : String)
  | fault (msg : String)

/-- A detector: stable name plus the outcome its Discover call produces this
cycle (spec section 4.1). -/
structure FeatureSource where
  name : String
  discover : DiscoverResult

/-- Modelled from the spec: getFeatureLabels (main.go, absent from src; its
test is src/unnamed/part_000 lines 19-54 and 336-349). On success each
feature f yields key mkLabelName name f bound to the literal "true"; an
ordinary error is returned as-is with no labels; an abnormal termination is
caught at the fault-isolation boundary and converted into an ordinary error
carrying the fault message, with no labels. -/
def getFeatureLabels (s : FeatureSource) : Except String Labels :=
  match s.discover with
  | .ok fs => .ok (fs.foldl (fun m f => setLabel m (mkLabelName s.name f) "true") [])
  | .err e => .error e
  | .fault m => .error m

/-- The labels a detector contributes (empty when it fails or faults). -/
def labelsOf (s : FeatureSource) : Labels :=
  match getFeatureLabels s with
  | .ok ls => ls
  | .error _ => []

/-- Whether a detector discovery succeeds. -/
def discoverOk (s : FeatureSource) : Bool :=
  match s.discover with
  | .ok _ => true
  | _ => false

/-- One detector contribution filtered through the whitelist: each key
passing the filter is set on the accumulated label map (the inner loop of
createFeatureLabels). -/
def applyWhitelist (wl : String → Bool) (src : Labels) (acc : Labels) : Labels :=
  src.foldl (fun m p => if wl p.1 then setLabel m p.1 p.2 else m) acc

/-- Modelled from the spec: k8sHelpers.AddLabels (main.go, absent from src;
its test is src/unnamed/part_000 lines 273-298): sets/overwrites each
binding of the LabelSet on the node label map. -/
def addLabels (nodeLabels : Labels) (labels : Labels) : Labels :=
  labels.foldl (fun m p => setLabel m p.1 p.2) nodeLabels

/-- One step of label aggregation: a failing or faulting detector
contributes nothing, a succeeding one its whitelisted labels. -/
def buildStep (wl : String → Bool) (labels : Labels) (s : FeatureSource) : Labels :=
  match getFeatureLabels s with
  | .error _ => labels
  | .ok ls => applyWhitelist wl ls labels

/-- Modelled from the spec and the createFeatureLabels test: the key of the
unconditional program-version label the aggregator adds outside the
whitelist loop (src/unnamed/part_000 lines 249-268 count it: 3 features
yield 4 labels under the empty whitelist, and it alone survives a whitelist
matching no generated key). Its exact text is absent from src; only its
existence and unconditionality matter here. It starts with the reserved
namespace, as spec section 3 invariant (a) requires of every written key. -/
def versionLabelKey : String := labelNs ++ "-version"

/-- Modelled from the spec and the createFeatureLabels test: the value of
the unconditional program-version label (the program version string, absent
from src; kept abstract). -/
def versionLabelValue : String := "version"

/-- The label map the aggregation loop starts from: the one unconditional,
whitelist-bypassing program-version label. -/
def initialLabels : Labels := [(versionLabelKey, versionLabelValue)]

/-- Modelled from the spec: createFeatureLabels / BuildLabels (main.go,
absent from src; its test is src/unnamed/part_000 lines 240-271). The
program-version label is added unconditionally, outside the whitelist loop;
then each detector is invoked: a failing or faulting detector contributes
nothing and the cycle continues; a succeeding detector contributes its
whitelisted labels. -/
def createFeatureLabels (sources : List FeatureSource) (wl : String → Bool) : Labels :=
  sources.foldl (buildStep wl) initialLabels

/-- One step of the unfiltered union over detectors. -/
def unionStep (labels : Labels) (s : FeatureSource) : Labels :=
  match getFeatureLabels s with
  | .error _ => labels
  | .ok ls => addLabels labels ls

/-- The fully unfiltered union of the label sets of all succeeding
detectors alone (the right-hand side the original empty-whitelist claim
states). -/
def unionLabels (sources : List FeatureSource) : Labels :=
  sources.foldl unionStep []

/-- The unfiltered union of all succeeding detectors' label sets on top of
the unconditional program-version label. -/
def unionLabelsWithVersion (sources : List FeatureSource) : Labels :=
  sources.foldl unionStep initialLabels

/-- Modelled from the spec: the empty whitelist pattern is the no-filtering
sentinel, defined to match every key. -/
def matchAll : String → Bool := fun _ => true

/-- Modelled from the spec: k8sHelpers.RemoveLabels (main.go, absent from
src; its test is src/unnamed/part_000 lines 300-334): removes every key
that starts with the search string. -/
def removeLabels (nodeLabels : Labels) (search : String) : Labels :=
  nodeLabels.filter (fun p => !(startsWith p.1 search))

/-- Control-plane operations a synchronization cycle may invoke. -/
inductive Op where
  | getClient
  | getNode
  | removeOp
  | addOp
  | updateNode

/-- The control-plane collaborator, abstracted by the error each fallible
step would report (none = the step succeeds). -/
structure APIHelpers where
  clientErr : Option String
  nodeErr : Option String
  updateErr : Option String

/-- Result of one synchronization attempt: the returned error value, the
label state persisted on the node afterwards, and the trace of control-plane
operations invoked. -/
structure SyncOutcome where
  res : Except String Unit
  persisted : Labels
  trace : List Op

/-- Modelled from the spec: advertiseFeatureLabels (main.go, absent from
src; its test is src/unnamed/part_000 lines 61-119). Sequence: get-client,
fetch-node, remove-labels(node, reserved namespace), add-labels(node, new
LabelSet) — both in-memory — then persist, the single external write.
Failure at any step returns that step's error and leaves the persisted
state untouched. -/
def advertiseFeatureLabels (h : APIHelpers) (cp : Labels) (labels : Labels) : SyncOutcome :=
  match h.clientErr with
  | some e => ⟨.error e, cp, [.getClient]⟩
  | none =>
    match h.nodeErr with
    | some e => ⟨.error e, cp, [.getClient, .getNode]⟩
    | none =>
      let node := addLabels (removeLabels cp labelNs) labels
      match h.updateErr with
      | some e => ⟨.error e, cp, [.getClient, .getNode, .removeOp, .addOp, .updateNode]⟩
      | none => ⟨.ok (), node, [.getClient, .getNode, .removeOp, .addOp, .updateNode]⟩

/-- Modelled from the spec: updateNodeWithFeatureLabels (main.go, absent
from src; its test is src/unnamed/part_000 lines 61-84). When no-publish is
set the LabelSet is discarded without touching the control plane. -/
def updateNodeWithFeatureLabels (h : APIHelpers) (noPublish : Bool) (cp : Labels)
    (labels : Labels) : SyncOutcome :=
  if noPublish then ⟨.ok (), cp, []⟩
  else advertiseFeatureLabels h cp labels

/-- The reconciliation formula the spec states: the result binds k as L_new
does when L_new has k, drops every other reserved-namespace key, and keeps
every other binding of L_old. Pointwise reading of
(L_old minus reserved-namespace keys) union L_new. -/
def reconcileSpec (lOld lNew : Labels) (k : String) : Option String :=
  match lookupLabel lNew k with
  | some v => some v
  | none => if startsWith k labelNs then none else lookupLabel lOld k

/-- Outcome of the external probe command run by the gpu detector: captured
standard output and the command error, if any (src/source/gpu/gpu.go,
ExecCommand). -/
structure ProbeOutcome where
  out : String
  err : Option String

/-- gpu Source.Discover (src/source/gpu/gpu.go lines 45-53): on probe
success the single feature "present"; on probe failure no features and an
error wrapping the command failure and its output. -/
def gpuDiscover (p : ProbeOutcome) : Except String (List String) :=
  match p.err with
  | some e =>
    .error ("Failed to detect a gpu, please check if the system has a gpu: " ++ e ++ " " ++ p.out)
  | none => .ok ["present"]

/-- gpu Source.Name (src/source/gpu/gpu.go line 43). -/
def gpuName : String := "gpu"

/-- A concrete succeeding detector, as in the mock-source test. -/
def exSource : FeatureSource :=
  ⟨"testSource", .ok ["testfeature1", "testfeature2", "testfeature3"]⟩

/-- A concrete failing detector, as in the mock-source test. -/
def badSource : FeatureSource := ⟨"badSource", .err "fake error"⟩

/-- A concrete abnormally terminating detector, as in the panic test. -/
def faultSource : FeatureSource := ⟨"panicSource", .fault "fake panic error"⟩

/-- A control-plane collaborator whose steps all succeed. -/
def okHelpers : APIHelpers := ⟨none, none, none⟩

/-- A control-plane collaborator whose client acquisition fails. -/
def failingHelpers : APIHelpers := ⟨some "fake error", none, none⟩

/-- Concrete prior node labels: one stale reserved-namespace label and one
foreign label. -/
def exOldLabels : Labels :=
  [(labelNs ++ "-fake-stale", "true"), ("kubernetes.io/hostname", "node1")]

/-- A concrete freshly computed LabelSet. -/
def exNewLabels : Labels := [(mkLabelName "testSource" "testfeature1", "true")]

/-- A concrete whitelist matching only keys that contain "rdt". -/
def containsRdt : String → Bool := fun k => listContains "rdt".data k.data

/-- The concrete node label map of the RemoveLabels test. -/
def exNodeLabels : Labels :=
  [("single", "123"), ("multiple_A", "a"), ("multiple_B", "b")]

/-! ### Helper lemmas about label-map lookup -/

theorem find?_filter_ne (m : Labels) (k q : String) (h : q ≠ k) :
    (m.filter (fun p => !(p.1 == k))).find? (fun p => p.1 == q) =
      m.find? (fun p => p.1 == q) := by
  have hkq : (k == q) = false := beq_false_of_ne (fun hq => h hq.symm)
  induction m with
  | nil => rfl
  | cons a m ih =>
    by_cases hak : a.1 = k
    · have haq : (a.1 == q) = false := by
        rw [hak]; exact hkq
      simp [List.filter_cons, hak, List.find?_cons, haq, hkq, ih]
    · have hakb : (a.1 == k) = false := beq_false_of_ne hak
      by_cases haq : a.1 = q
      · simp [List.filter_cons, hakb, List.find?_cons, haq, h]
      · have haqb : (a.1 == q) = false := beq_false_of_ne haq
        simp [List.filter_cons, hakb, List.find?_cons, haqb, ih]

theorem lookupLabel_setLabel (m : Labels) (k v q : String) :
    lookupLabel (setLabel m k v) q = if q = k then some v else lookupLabel m q := by
  by_cases hqk : q = k
  · subst hqk
    simp [lookupLabel, setLabel, List.find?_cons]
  · have hkq : (k == q) = false := beq_false_of_ne (fun hq => hqk hq.symm)
    simp [lookupLabel, setLabel, List.find?_cons, hkq,
      find?_filter_ne m k q hqk, hqk]

theorem lookupLabel_eq_none (m : Labels) (q : String) (h : ∀ p ∈ m, p.1 ≠ q) :
    lookupLabel m q = none := by
  have hfind : m.find? (fun p => p.1 == q) = none := by
    rw [List.find?_eq_none]
    intro p hp
    simpa using h p hp
  simp [lookupLabel, hfind]

theorem any_key_eq_isSome (m : Labels) (q : String) :
    m.any (fun p => p.1 == q) = (lookupLabel m q).isSome := by
  induction m with
  | nil => rfl
  | cons a m ih =>
    by_cases haq : a.1 = q
    · simp [List.any_cons, lookupLabel, List.find?_cons, haq]
    · have haqb : (a.1 == q) = false := beq_false_of_ne haq
      simp only [List.any_cons, lookupLabel, List.find?_cons, haqb, Bool.false_or,
        cond_false] at ih ⊢
      exact ih

theorem lookupLabel_cons (p : String × String) (m : Labels) (q : String) :
    lookupLabel (p :: m) q = if p.1 = q then some p.2 else lookupLabel m q := by
  by_cases h : p.1 = q
  · simp [lookupLabel, List.find?_cons, h]
  · have hb : (p.1 == q) = false := beq_false_of_ne h
    simp [lookupLabel, List.find?_cons, hb, h]

theorem find?_filter_of_pred (m : Labels) (pr : String × String → Bool) (q : String)
    (h : ∀ p, p.1 = q → pr p = true) :
    (m.filter pr).find? (fun p => p.1 == q) = m.find? (fun p => p.1 == q) := by
  induction m with
  | nil => rfl
  | cons a m ih =>
    cases hpr : pr a with
    | true =>
      by_cases haq : a.1 = q
      · simp [List.filter_cons, hpr, List.find?_cons, haq]
      · have hb : (a.1 == q) = false := beq_false_of_ne haq
        simp [List.filter_cons, hpr, List.find?_cons, hb, ih]
    | false =>
      have haq : ¬ a.1 = q := fun hc => by rw [h a hc] at hpr; exact Bool.noConfusion hpr
      have hb : (a.1 == q) = false := beq_false_of_ne haq
      simp [List.filter_cons, hpr, List.find?_cons, hb, ih]

theorem lookupLabel_removeLabels (m : Labels) (s q : String) :
    lookupLabel (removeLabels m s) q =
      if startsWith q s then none else lookupLabel m q := by
  by_cases hq : startsWith q s = true
  · rw [if_pos hq]
    apply lookupLabel_eq_none
    intro p hp hpq
    have hkeep : (!(startsWith p.1 s)) = true := (List.mem_filter.mp hp).2
    rw [hpq, hq] at hkeep
    exact Bool.noConfusion hkeep
  · rw [if_neg hq]
    unfold removeLabels lookupLabel
    rw [find?_filter_of_pred]
    intro p hpq
    rw [hpq]
    cases hb : startsWith q s with
    | true => exact absurd hb hq
    | false => simp

theorem removeLabels_idem (m : Labels) (s : String) :
    removeLabels (removeLabels m s) s = removeLabels m s := by
  induction m with
  | nil => rfl
  | cons a m ih =>
    cases hpre : startsWith a.1 s with
    | true => simp only [removeLabels, List.filter_cons, hpre] at ih ⊢; simp [ih]
    | false =>
      simp only [removeLabels, List.filter_cons, hpre] at ih ⊢
      simp [hpre, ih]

theorem removeLabels_eq_self (m : Labels) (s : String)
    (h : ∀ p ∈ m, startsWith p.1 s = false) :
    removeLabels m s = m := by
  unfold removeLabels
  rw [List.filter_eq_self]
  intro p hp
  simp [h p hp]

theorem lookupLabel_addLabels (m ls : Labels) (q : String) (hnd : nodupKeys ls) :
    lookupLabel (addLabels m ls) q =
      match lookupLabel ls q with
      | some v => some v
      | none => lookupLabel m q := by
  induction ls generalizing m with
  | nil => simp [addLabels, lookupLabel]
  | cons p ls ih =>
    have hnd2 : nodupKeys ls := (List.nodup_cons.mp hnd).2
    have hnotin : p.1 ∉ ls.map Prod.fst := (List.nodup_cons.mp hnd).1
    have hstep : addLabels m (p :: ls) = addLabels (setLabel m p.1 p.2) ls := rfl
    rw [hstep, ih _ hnd2, lookupLabel_cons]
    by_cases hpq : p.1 = q
    · have hnone : lookupLabel ls q = none := by
        apply lookupLabel_eq_none
        intro r hr hrq
        exact hnotin (hpq ▸ hrq ▸ List.mem_map_of_mem Prod.fst hr)
      rw [hnone, if_pos hpq, lookupLabel_setLabel, if_pos hpq.symm]
    · rw [if_neg hpq, lookupLabel_setLabel, if_neg (fun hc => hpq hc.symm)]

theorem mem_setLabel {p : String × String} {m : Labels} {k v : String}
    (h : p ∈ setLabel m k v) : p = (k, v) ∨ p ∈ m := by
  unfold setLabel at h
  rcases List.mem_cons.mp h with h1 | h2
  · exact Or.inl h1
  · exact Or.inr (List.mem_filter.mp h2).1

theorem values_featureFold (sname : String) (fs : List String) (m0 : Labels)
    (h0 : ∀ p ∈ m0, p.2 = "true") :
    ∀ p ∈ fs.foldl (fun m f => setLabel m (mkLabelName sname f) "true") m0, p.2 = "true" := by
  induction fs generalizing m0 with
  | nil => exact h0
  | cons f fs ih =>
    rw [List.foldl_cons]
    apply ih
    intro p hp
    rcases mem_setLabel hp with h1 | h2
    · rw [h1]
    · exact h0 p h2

theorem lookupLabel_featureFold (sname : String) (fs : List String) (m0 : Labels) (q : String) :
    lookupLabel (fs.foldl (fun m f => setLabel m (mkLabelName sname f) "true") m0) q =
      if fs.any (fun f => q == mkLabelName sname f) then some "true"
      else lookupLabel m0 q := by
  induction fs generalizing m0 with
  | nil => simp
  | cons f fs ih =>
    rw [List.foldl_cons, ih, lookupLabel_setLabel]
    by_cases hq : q = mkLabelName sname f
    · simp [List.any_cons, hq]
    · have hqb : (q == mkLabelName sname f) = false := beq_false_of_ne hq
      simp [List.any_cons, hqb, hq]

theorem lookupLabel_applyWhitelist (wl : String → Bool) (ls acc : Labels) (q : String)
    (hval : ∀ p ∈ ls, p.2 = "true") :
    lookupLabel (applyWhitelist wl ls acc) q =
      if ls.any (fun p => p.1 == q) && wl q then some "true"
      else lookupLabel acc q := by
  induction ls generalizing acc with
  | nil => simp [applyWhitelist]
  | cons p ls ih =>
    have hp2 : p.2 = "true" := hval p (List.mem_cons_self p ls)
    have hstep : applyWhitelist wl (p :: ls) acc =
        applyWhitelist wl ls (if wl p.1 then setLabel acc p.1 p.2 else acc) := rfl
    rw [hstep, ih _ (fun r hr => hval r (List.mem_cons_of_mem p hr))]
    by_cases hpq : p.1 = q
    · subst hpq
      cases hwl : wl p.1 with
      | true =>
        cases hany : ls.any (fun r => r.1 == p.1) with
        | true => simp [List.any_cons, hany, hwl]
        | false => simp [List.any_cons, hany, hwl, lookupLabel_setLabel, hp2]
      | false => simp [List.any_cons, hwl]
    · have hpqb : (p.1 == q) = false := beq_false_of_ne hpq
      have hqp : ¬ q = p.1 := fun hc => hpq hc.symm
      have hlook : lookupLabel (if wl p.1 then setLabel acc p.1 p.2 else acc) q =
          lookupLabel acc q := by
        by_cases hwl : wl p.1 = true
        · rw [if_pos hwl, lookupLabel_setLabel, if_neg hqp]
        · rw [if_neg hwl]
      rw [hlook, List.any_cons, hpqb]
      simp only [Bool.false_or]

theorem applyWhitelist_rejected (wl : String → Bool) (ls acc : Labels)
    (h : ∀ p ∈ ls, wl p.1 = false) :
    applyWhitelist wl ls acc = acc := by
  induction ls generalizing acc with
  | nil => rfl
  | cons p ls ih =>
    have hw : wl p.1 = false := h p (List.mem_cons_self p ls)
    have hstep : applyWhitelist wl (p :: ls) acc =
        applyWhitelist wl ls (if wl p.1 then setLabel acc p.1 p.2 else acc) := rfl
    rw [hstep, hw]
    exact ih _ (fun r hr => h r (List.mem_cons_of_mem p hr))

theorem applyWhitelist_matchAll (ls acc : Labels) :
    applyWhitelist matchAll ls acc = addLabels acc ls := by
  simp [applyWhitelist, addLabels, matchAll]

/-! ### Claim theorems -/

/-- Claim C3: when a detector terminates abnormally, the fault-isolation
boundary converts the fault into an ordinary error value carrying the fault
message, and the detector contributes no labels; no process-level
termination is modelled — the result is an ordinary error value. -/
theorem fault_isolated_to_error (s : FeatureSource) (m : String)
    (h : s.discover = .fault m) :
    getFeatureLabels s = .error m ∧ labelsOf s = [] := by
  constructor
  · simp [getFeatureLabels, h]
  · simp [labelsOf, getFeatureLabels, h]

/-- Witness for C3 at the concrete panicking detector of the test suite. -/
theorem fault_isolated_to_error_w :
    getFeatureLabels faultSource = .error "fake panic error" ∧
      labelsOf faultSource = [] :=
  fault_isolated_to_error faultSource "fake panic error" rfl

/-- Claim C4: a detector whose Discover returns an error yields no labels
together with exactly that error, and dropping it from the detector list
leaves the aggregated LabelSet of every other detector unchanged. -/
theorem failing_source_isolated (s : FeatureSource) (e : String)
    (h : s.discover = .err e) :
    getFeatureLabels s = .error e ∧
    ∀ (pre post : List FeatureSource) (wl : String → Bool),
      createFeatureLabels (pre ++ s :: post) wl = createFeatureLabels (pre ++ post) wl := by
  have hg : getFeatureLabels s = .error e := by simp [getFeatureLabels, h]
  refine ⟨hg, ?_⟩
  intro pre post wl
  unfold createFeatureLabels
  rw [List.foldl_append, List.foldl_append, List.foldl_cons]
  have hstep : ∀ acc : Labels, buildStep wl acc s = acc := by
    intro acc
    simp [buildStep, hg]
  rw [hstep]

/-- Witness for C4: the failing mock detector next to a succeeding one. -/
theorem failing_source_isolated_w :
    getFeatureLabels badSource = .error "fake error" ∧
    createFeatureLabels [exSource, badSource] matchAll =
      createFeatureLabels [exSource] matchAll :=
  ⟨(failing_source_isolated badSource "fake error" rfl).1,
   by simpa using
     (failing_source_isolated badSource "fake error" rfl).2 [exSource] [] matchAll⟩

/-- Claim C6: failure of client acquisition, node fetch, or the terminal
persist step aborts the rest of the cycle, propagates exactly that step's
error, and leaves the persisted node labels unchanged. -/
theorem sync_failure_aborts_without_write (h : APIHelpers) (cp lNew : Labels) :
    (∀ e, h.clientErr = some e →
      advertiseFeatureLabels h cp lNew = ⟨.error e, cp, [.getClient]⟩) ∧
    (∀ e, h.clientErr = none → h.nodeErr = some e →
      advertiseFeatureLabels h cp lNew = ⟨.error e, cp, [.getClient, .getNode]⟩) ∧
    (∀ e, h.clientErr = none → h.nodeErr = none → h.updateErr = some e →
      advertiseFeatureLabels h cp lNew =
        ⟨.error e, cp, [.getClient, .getNode, .removeOp, .addOp, .updateNode]⟩) := by
  refine ⟨?_, ?_, ?_⟩
  · intro e hc
    simp [advertiseFeatureLabels, hc]
  · intro e hc hn
    simp [advertiseFeatureLabels, hc, hn]
  · intro e hc hn hu
    simp [advertiseFeatureLabels, hc, hn, hu]

/-- Witness for C6 at a collaborator whose client acquisition fails. -/
theorem sync_failure_aborts_without_write_w :
    advertiseFeatureLabels failingHelpers exOldLabels exNewLabels =
      ⟨.error "fake error", exOldLabels, [.getClient]⟩ :=
  (sync_failure_aborts_without_write failingHelpers exOldLabels exNewLabels).1
    "fake error" rfl

/-- Claim C9: with the no-publish flag set, the publish step invokes no
control-plane operation, leaves the persisted labels unchanged and returns
no error. -/
theorem noPublish_touches_nothing (h : APIHelpers) (cp labels : Labels) :
    updateNodeWithFeatureLabels h true cp labels = ⟨.ok (), cp, []⟩ := rfl

/-- Claim C10: the gpu detector returns exactly the feature list with the
single element "present" and no error when the probe command succeeds, and
no features together with an error wrapping the command failure and its
output when the probe fails. -/
theorem gpu_discover_exact (p : ProbeOutcome) :
    (p.err = none → gpuDiscover p = .ok ["present"]) ∧
    (∀ e, p.err = some e →
      gpuDiscover p =
        .error ("Failed to detect a gpu, please check if the system has a gpu: "
          ++ e ++ " " ++ p.out)) := by
  constructor
  · intro h
    simp [gpuDiscover, h]
  · intro e h
    simp [gpuDiscover, h]

/-- Witness for C10 at a succeeding probe. -/
theorem gpu_discover_exact_w : gpuDiscover ⟨"", none⟩ = .ok ["present"] :=
  (gpu_discover_exact ⟨"", none⟩).1 rfl

theorem foldl_buildStep_rejected (wl : String → Bool) (sources : List FeatureSource) :
    ∀ acc : Labels, (∀ s ∈ sources, ∀ p ∈ labelsOf s, wl p.1 = false) →
      List.foldl (buildStep wl) acc sources = acc := by
  induction sources with
  | nil =>
    intro acc _
    rfl
  | cons s rest ih =>
    intro acc hr
    rw [List.foldl_cons]
    have h1 : buildStep wl acc s = acc := by
      unfold buildStep
      cases hg : getFeatureLabels s with
      | error e => rfl
      | ok ls =>
        apply applyWhitelist_rejected
        intro p hp
        apply hr s (List.mem_cons_self s rest) p
        unfold labelsOf
        rw [hg]
        exact hp
    rw [h1]
    exact ih acc (fun t ht p hp => hr t (List.mem_cons_of_mem s ht) p hp)

/-- Claim C1: a full reconciliation cycle against a collaborator whose
steps all succeed persists exactly (L_old minus all reserved-namespace
keys) union L_new: L_new bindings are all present, no stale reserved key
absent from L_new survives, and no non-reserved binding of L_old is
altered. -/
theorem advertise_full_cycle_reconciles (h : APIHelpers) (lOld lNew : Labels)
    (hc : h.clientErr = none) (hn : h.nodeErr = none) (hu : h.updateErr = none)
    (hnd : nodupKeys lNew) :
    (advertiseFeatureLabels h lOld lNew).res = .ok () ∧
    ∀ q, lookupLabel (advertiseFeatureLabels h lOld lNew).persisted q =
      reconcileSpec lOld lNew q := by
  have hadv : advertiseFeatureLabels h lOld lNew =
      ⟨.ok (), addLabels (removeLabels lOld labelNs) lNew,
        [.getClient, .getNode, .removeOp, .addOp, .updateNode]⟩ := by
    simp [advertiseFeatureLabels, hc, hn, hu]
  rw [hadv]
  refine ⟨rfl, ?_⟩
  intro q
  show lookupLabel (addLabels (removeLabels lOld labelNs) lNew) q =
    reconcileSpec lOld lNew q
  rw [lookupLabel_addLabels _ _ _ hnd]
  unfold reconcileSpec
  cases hq : lookupLabel lNew q with
  | some v => rfl
  | none => rw [lookupLabel_removeLabels]

/-- Witness for C1 at concrete prior labels, a concrete LabelSet and a
fully succeeding collaborator; sampled at the foreign key. -/
theorem advertise_full_cycle_reconciles_w :
    nodupKeys exNewLabels ∧
    (advertiseFeatureLabels okHelpers exOldLabels exNewLabels).res = .ok () ∧
    lookupLabel (advertiseFeatureLabels okHelpers exOldLabels exNewLabels).persisted
        "kubernetes.io/hostname" =
      reconcileSpec exOldLabels exNewLabels "kubernetes.io/hostname" :=
  ⟨by decide,
   (advertise_full_cycle_reconciles okHelpers exOldLabels exNewLabels rfl rfl rfl
     (by decide)).1,
   (advertise_full_cycle_reconciles okHelpers exOldLabels exNewLabels rfl rfl rfl
     (by decide)).2 "kubernetes.io/hostname"⟩

/-- Claim C2: for a detector whose Discover succeeds with feature set F,
the label mapping produced for that detector — its discovered labels passed
through the whitelist filter, collected on an empty map — binds exactly the
whitelisted keys mkLabelName name f, f in F, to the literal "true", and
nothing else. (The unconditional program-version label of the aggregate is
not produced for any detector and so does not appear here.) -/
theorem single_source_labels_exact (s : FeatureSource) (F : List String)
    (wl : String → Bool) (h : s.discover = .ok F) (q : String) :
    lookupLabel (applyWhitelist wl (labelsOf s) []) q =
      if (F.any (fun f => q == mkLabelName s.name f)) && wl q then some "true"
      else none := by
  have hlab : labelsOf s =
      F.foldl (fun m f => setLabel m (mkLabelName s.name f) "true") [] := by
    simp [labelsOf, getFeatureLabels, h]
  rw [hlab,
    lookupLabel_applyWhitelist _ _ _ _ (values_featureFold s.name F [] (by intro p hp; cases hp))]
  have hany : ((F.foldl (fun m f => setLabel m (mkLabelName s.name f) "true") []).any
      (fun p => p.1 == q)) = F.any (fun f => q == mkLabelName s.name f) := by
    rw [any_key_eq_isSome, lookupLabel_featureFold]
    cases hF : F.any (fun f => q == mkLabelName s.name f) with
    | true => simp
    | false => simp [lookupLabel]
  rw [hany]
  simp [lookupLabel]

/-- Witness for C2 at the mock detector with the no-filtering whitelist,
sampled at its second synthesized key. -/
theorem single_source_labels_exact_w :
    lookupLabel (applyWhitelist matchAll (labelsOf exSource) [])
        (mkLabelName "testSource" "testfeature2") = some "true" := by
  rw [single_source_labels_exact exSource ["testfeature1", "testfeature2", "testfeature3"]
    matchAll rfl (mkLabelName "testSource" "testfeature2")]
  decide

/-- Claim C5: RemoveLabels removes exactly and only the keys that start
with the search string: it is idempotent, a search matching no key leaves
the map unchanged, and lookup afterwards is none exactly on matching keys
and unchanged on all others. -/
theorem removeLabels_exact (m : Labels) (s : String) :
    removeLabels (removeLabels m s) s = removeLabels m s ∧
    ((∀ p ∈ m, startsWith p.1 s = false) → removeLabels m s = m) ∧
    ∀ q, lookupLabel (removeLabels m s) q =
      if startsWith q s then none else lookupLabel m q :=
  ⟨removeLabels_idem m s, removeLabels_eq_self m s, lookupLabel_removeLabels m s⟩

/-- Witness for C5 at the RemoveLabels test map with the non-matching
search string. -/
theorem removeLabels_exact_w :
    (∀ p ∈ exNodeLabels, startsWith p.1 "unique" = false) ∧
    removeLabels exNodeLabels "unique" = exNodeLabels :=
  ⟨by decide, (removeLabels_exact exNodeLabels "unique").2.1 (by decide)⟩

/-- Counterexample to C7 as stated: with the match-all sentinel the
aggregate over one succeeding detector is not the unfiltered detector
union — the unconditional program-version label makes it one entry
larger (the test counts 4 labels for 3 features). -/
theorem emptyWhitelist_no_filtering_cex :
    createFeatureLabels [exSource] matchAll ≠ unionLabels [exSource] := by
  decide

/-- Claim C7, amended: aggregating with the empty-pattern sentinel, which
matches every key, yields exactly the unconditional program-version label
together with the unfiltered union of the label sets of all succeeding
detectors: the empty pattern never behaves as match-nothing. -/
theorem emptyWhitelist_no_filtering (sources : List FeatureSource) :
    createFeatureLabels sources matchAll = unionLabelsWithVersion sources := by
  unfold createFeatureLabels unionLabelsWithVersion
  have hstep : buildStep matchAll = unionStep := by
    funext labels s
    unfold buildStep unionStep
    cases hg : getFeatureLabels s with
    | error e => rfl
    | ok ls => exact applyWhitelist_matchAll ls labels
  rw [hstep]

/-- Counterexample to C8 as stated: one succeeding detector under the
contains-rdt whitelist, which rejects every generated key, yet the
aggregate is not empty — the unconditional program-version label survives
(the test counts exactly 1 label in this scenario). -/
theorem nonmatching_whitelist_empty_cex :
    (∀ s ∈ [exSource], discoverOk s = true) ∧
    (∀ s ∈ [exSource], ∀ p ∈ labelsOf s, containsRdt p.1 = false) ∧
    createFeatureLabels [exSource] containsRdt ≠ [] := by
  refine ⟨by decide, by decide, by decide⟩

/-- Claim C8, amended: when every enabled detector succeeds and the
whitelist matches none of the generated keys, aggregation returns exactly
the unconditional program-version label and no detector-generated label. -/
theorem nonmatching_whitelist_empty (sources : List FeatureSource) (wl : String → Bool)
    (_hok : ∀ s ∈ sources, discoverOk s = true)
    (hrej : ∀ s ∈ sources, ∀ p ∈ labelsOf s, wl p.1 = false) :
    createFeatureLabels sources wl = initialLabels := by
  unfold createFeatureLabels
  exact foldl_buildStep_rejected wl sources initialLabels hrej

/-- Witness for C8: the succeeding mock detector with the contains-rdt
whitelist, which matches none of its keys. -/
theorem nonmatching_whitelist_empty_w :
    createFeatureLabels [exSource] containsRdt = initialLabels :=
  nonmatching_whitelist_empty [exSource] containsRdt (by decide) (by decide)
